import Mathlib

/-!
# Verification of the pyseq2501 control core against its specification

Shallow embedding of the valve pair (`pyseq2/fluidics/valve.py`), the
imaging orchestrator (`pyseq2/imager.py`), the laser power loop
(`src/imaging/laser.py`), the tilt-stage initialization
(`src/imaging/fpga/tiltstage.py`) and the camera capture loop
(`src/imaging/camera/dcam.py`), together with theorems settling the
spec's testable properties.

Machine integers are modelled as `Nat`/`Int` (no overflow is reachable in
the modelled ranges), fallible operations return `Except String _`, and
serial-hardware responses are modelled as faithful (a valve reports the
position it was told to move to), which is the regime all of the
properties below quantify over.
-/

/-! ## Valves (`pyseq2/fluidics/valve.py`) -/

/-- State of a single VICI valve: current port in `[1,10]` and the
wall-clock timestamp of the last `GO` command (`Valve.t_lastcmd`).
Time is modelled as a natural number of seconds. -/
structure ValveSt where
  pos : Nat
  tLastcmd : Nat
  deriving Repr, DecidableEq

/-- Commands of the valve serial protocol (`ValveCmd`): `CP` is the
position readback, `go p` is `GO{p}`. -/
inductive VCmd where
  | cp : VCmd
  | go : Nat → VCmd
  deriving Repr, DecidableEq

/-- `Valve.move(p)` under the channel big-lock, with a faithful valve:
reads the position (`CP`); if already at `p`, returns without issuing
`GO` and without stamping `t_lastcmd`; otherwise issues `GO{p}`, stamps
the clock with `now`, and re-reads to confirm.  Returns the new state,
the list of issued commands, and whether the sub-10-second
advisory warning fired. -/
def Valve_move (s : ValveSt) (p : Nat) (now : Nat) : ValveSt × List VCmd × Bool :=
  let warned := now - s.tLastcmd < 10
  if s.pos = p then (s, [.cp], warned)
  else ({ pos := p, tLastcmd := now }, [.cp, .go p, .cp], warned)

/-- State of a valve pair (`Valves`): the positions of the two
underlying valves. -/
structure VState where
  v0 : Nat
  v1 : Nat
  deriving Repr, DecidableEq

/-- The merged readback of `Valves.pos`: if valve 0 reads 10 the logical
position is `valve1 + 9`, otherwise it is valve 0's position. -/
def mergedPos (s : VState) : Nat :=
  if s.v0 = 10 then s.v1 + 9 else s.v0

/-- `Valves.move(p)` with faithful valves.  The guard mirrors the source
line `if not 1 <= p <= 18 and p != 9:` — by Python precedence this is
`(¬(1 ≤ p ∧ p ≤ 18)) ∧ p ≠ 9`.  For `p > 9` both valves move
(valve 0 to 10, valve 1 to `p − 9`), otherwise valve 0 moves to `p`;
the trailing `assert await self.pos == p` is the final check. -/
def Valves_move (s : VState) (p : Nat) : Except String VState :=
  if (¬(1 ≤ p ∧ p ≤ 18)) ∧ p ≠ 9 then
    .error "Invalid port number. Range is [1, 18], excluding 9."
  else
    let s' : VState := if 9 < p then { v0 := 10, v1 := p - 9 } else { v0 := p, v1 := s.v1 }
    if mergedPos s' = p then .ok s' else .error "merged readback disagrees with target"

/-- Run `Valves.move` as a state transformer: on failure the valve state
is kept and the failure is recorded. -/
def runValvesMove (s : VState) (p : Nat) : VState × Bool :=
  match Valves_move s p with
  | .ok s' => (s', true)
  | .error _ => (s, false)

/-- `Valves.port_safety(pos)`: move to `pos`, run the caller's body
(modelled as an arbitrary state transformer returning its success flag),
and in the `finally` block move to the safe position 9.  The returned
flag is whether the whole scope exited normally. -/
def Valves_port_safety (s : VState) (p : Nat) (body : VState → VState × Bool) :
    VState × Bool :=
  let r1 := runValvesMove s p
  let r2 := if r1.2 then body r1.1 else (r1.1, false)
  let r3 := runValvesMove r2.1 9
  (r3.1, r1.2 && r2.2 && r3.2)

/-! ## Theorems about the valves -/

/-- **C1.** The logical-move entry point does **not** reject `p = 9`:
from state `(1, 1)`, `valve_pair.move(9)` succeeds and moves valve 0 to
port 9, while a genuinely out-of-range port such as 0 is rejected with
the validation error whose message claims 9 is excluded.  The guard
`if not 1 <= p <= 18 and p != 9` parses as
`(not (1 <= p <= 18)) and (p != 9)`, which is false at `p = 9`. -/
theorem valves_move_nine_accepted :
    Valves_move ⟨1, 1⟩ 9 = .ok ⟨9, 1⟩ ∧
    Valves_move ⟨1, 1⟩ 0 =
      .error "Invalid port number. Range is [1, 18], excluding 9." := by
  constructor <;> rfl

/-- **C7.** For every `p ∈ {1..8} ∪ {10..18}` and every starting state,
`valve_pair.move(p)` succeeds and the merged readback afterwards
equals `p`. -/
theorem valves_move_merged_readback (s : VState) (p : Nat)
    (hp : (1 ≤ p ∧ p ≤ 8) ∨ (10 ≤ p ∧ p ≤ 18)) :
    ∃ s', Valves_move s p = .ok s' ∧ mergedPos s' = p := by
  unfold Valves_move
  have hrange : ¬((¬(1 ≤ p ∧ p ≤ 18)) ∧ p ≠ 9) := by
    rcases hp with ⟨h1, h2⟩ | ⟨h1, h2⟩ <;> simp <;> omega
  rw [if_neg hrange]
  rcases hp with ⟨h1, h2⟩ | ⟨h1, h2⟩
  · have h9 : ¬(9 < p) := by omega
    rw [if_neg h9]
    have hm : mergedPos { v0 := p, v1 := s.v1 } = p := by
      unfold mergedPos
      have : p ≠ 10 := by omega
      simp [this]
    exact ⟨_, by rw [if_pos hm], hm⟩
  · have h9 : 9 < p := by omega
    rw [if_pos h9]
    have hm : mergedPos { v0 := 10, v1 := p - 9 } = p := by
      unfold mergedPos
      simp
      omega
    exact ⟨_, by rw [if_pos hm], hm⟩

/-- Witness for C7: moving to port 14 from state `(3, 7)` succeeds and
the merged readback is 14. -/
theorem valves_move_merged_readback_witness :
    ∃ s', Valves_move ⟨3, 7⟩ 14 = .ok s' ∧ mergedPos s' = 14 :=
  valves_move_merged_readback ⟨3, 7⟩ 14 (Or.inr (by omega))

/-- **C8.** For every starting state, every port `p` and every body
(including a failing one), `port_safety(p)` ends with the valve pair at
the safe logical position 9: the `finally`-block move to 9 runs on
every exit path and always succeeds. -/
theorem port_safety_ends_at_nine (s : VState) (p : Nat)
    (body : VState → VState × Bool) :
    mergedPos (Valves_port_safety s p body).1 = 9 := by
  unfold Valves_port_safety
  set s2 := if (runValvesMove s p).2 then body (runValvesMove s p).1
            else ((runValvesMove s p).1, false) with hs2
  show mergedPos (runValvesMove s2.1 9).1 = 9
  unfold runValvesMove Valves_move
  have hguard : ¬((¬(1 ≤ 9 ∧ 9 ≤ 18)) ∧ (9 : Nat) ≠ 9) := by simp
  rw [if_neg hguard]
  have h9 : ¬(9 < (9 : Nat)) := by omega
  rw [if_neg h9]
  have hm : mergedPos { v0 := 9, v1 := s2.1.v1 } = 9 := by
    unfold mergedPos; simp
  rw [if_pos hm]
  exact hm

/-- **C10.** A `Valve.move(p)` that finds the valve already at `p`
returns with the state (in particular `t_lastcmd`) unchanged and never
issues a `GO` command, so a no-op move does not refresh the 10-second
advisory-warning window. -/
theorem valve_move_noop_tlast (s : ValveSt) (p now : Nat) (h : s.pos = p) :
    (Valve_move s p now).1 = s ∧ VCmd.go p ∉ (Valve_move s p now).2.1 := by
  unfold Valve_move
  rw [if_pos h]
  refine ⟨rfl, ?_⟩
  intro hmem
  simp at hmem

/-- Witness for C10: a valve at port 3 asked to move to 3 keeps its
state `(3, 42)` and issues no `GO3`. -/
theorem valve_move_noop_tlast_witness :
    (Valve_move ⟨3, 42⟩ 3 100).1 = ⟨3, 42⟩ ∧
    VCmd.go 3 ∉ (Valve_move ⟨3, 42⟩ 3 100).2.1 :=
  valve_move_noop_tlast ⟨3, 42⟩ 3 100 rfl

/-! ## Laser power (`src/imaging/laser.py`) -/

/-- Modelled from the spec: `is_between` (from `src/utils/com.py`, not
included in the sources) validates an integer command parameter against
an inclusive range, failing with a validation error before any I/O.
For the laser the declared range is `POWER_RANGE = (0, 500)`. -/
def isBetween (lo hi x : Int) : Bool := lo ≤ x && x ≤ hi

/-- The polling loop of `Laser.set_power`: `while power.result() - power
> 3: sleep(1)`.  `reads` is the sequence of read-back values returned by
successive `POWER?` polls; the loop returns at the first read `r` with
`r - p ≤ 3` (and that `r` is the read-back at return).  `none` means the
read-backs never satisfy the exit condition (the worker blocks). -/
def pollConverge (p : Int) : List Int → Option Int
  | [] => none
  | r :: rest => if r - p > 3 then pollConverge p rest else some r

/-- `Laser.set_power(power)`: validate `power` against `[0, 500]`, issue
`POWER={power}`, then run the 1 Hz polling loop. -/
def Laser_set_power (p : Int) (reads : List Int) : Except String (Option Int) :=
  if isBetween 0 500 p then .ok (pollConverge p reads) else .error "validation-error"

/-! ## Theorems about the laser -/

/-- **C4, counterexample.** `set_power(500)` with a read-back of 0 mW
returns immediately (0 − 500 ≤ 3 exits the loop), yet
|read-back − target| = 500 > 3: the claimed two-sided ±3 mW convergence
is false at return. -/
theorem set_power_two_sided_false :
    Laser_set_power 500 [0] = .ok (some 0) ∧ ¬(|(0 : Int) - 500| ≤ 3) :=
  ⟨rfl, by decide⟩

/-- **C4, amended.** For every target `p` in the validated range
`[0, 500]`, `set_power(p)` returns only after the read-back has
converged from above: at return `readback − p ≤ 3`.  The below-target
direction is not waited out. -/
theorem set_power_upper_converge (p r : Int) (reads : List Int)
    (hp : 0 ≤ p ∧ p ≤ 500)
    (hr : Laser_set_power p reads = .ok (some r)) : r - p ≤ 3 := by
  unfold Laser_set_power at hr
  have hv : isBetween 0 500 p = true := by
    unfold isBetween
    simp only [Bool.and_eq_true, decide_eq_true_eq]
    omega
  rw [if_pos hv] at hr
  have hpoll : pollConverge p reads = some r := by
    injection hr
  clear hr
  induction reads with
  | nil => simp [pollConverge] at hpoll
  | cons x rest ih =>
    unfold pollConverge at hpoll
    by_cases hx : x - p > 3
    · rw [if_pos hx] at hpoll
      exact ih hpoll
    · rw [if_neg hx] at hpoll
      injection hpoll with hxr
      omega

/-- Witness for amended C4: `set_power(100)` with read-backs
`[200, 102]` returns at 102, and `102 − 100 ≤ 3`. -/
theorem set_power_upper_converge_witness :
    Laser_set_power 100 [200, 102] = .ok (some 102) ∧ (102 : Int) - 100 ≤ 3 :=
  ⟨rfl, set_power_upper_converge 100 102 [200, 102] (by omega) rfl⟩

/-! ## Tilt stage initialization (`src/imaging/fpga/tiltstage.py`) -/

/-- The motor addresses in source order: `ID = Literal[1, 3, 2]`. -/
def tiltIDs : List Nat := [1, 3, 2]

/-- `T{i}CUR 35` — set motor current. -/
def tiltCur (i : Nat) : String := "T" ++ toString i ++ "CUR 35"

/-- `T{i}VL 62500` — set motor velocity. -/
def tiltVl (i : Nat) : String := "T" ++ toString i ++ "VL 62500"

/-- `T{i}CR` — clear motor register. -/
def tiltCr (i : Nat) : String := "T" ++ toString i ++ "CR"

/-- `T{i}HM` — home motor. -/
def tiltHm (i : Nat) : String := "T" ++ toString i ++ "HM"

/-- The full command trace of `TiltStage.initialize`, in issue order:
`TDIZ_PI_STAGE`; then per motor (1, 3, 2) `T{i}CUR 35` and
`T{i}VL 62500`; then — because the outer loop variable is shadowed by
the inner comprehension — three identical batches of
`(T1CR, T3CR, T2CR)`; then `T{i}HM` per motor. -/
def tiltInitTrace : List String :=
  "TDIZ_PI_STAGE" ::
    ((tiltIDs.map (fun i => [tiltCur i, tiltVl i])).flatten ++
      ((tiltIDs.map (fun _ => tiltIDs.map tiltCr)).flatten ++
        tiltIDs.map tiltHm))

/-- Indices at which command `cmd` occurs in trace `t`. -/
def posOf (t : List String) (cmd : String) : List Nat :=
  (List.range t.length).filter (fun k => t.getD k "" == cmd)

/-- **C5, counterexample.** The claimed order — for each motor every
register-clear (`T{i}CR`) precedes every current-set and velocity-set —
is false on the actual `TiltStage.initialize` trace: `T1CUR 35` is
issued at index 1, before the first `T1CR` (index 7). -/
theorem tilt_init_clear_first_false :
    ¬(∀ i ∈ tiltIDs, ∀ a ∈ posOf tiltInitTrace (tiltCr i),
        ∀ b ∈ posOf tiltInitTrace (tiltCur i) ++ posOf tiltInitTrace (tiltVl i),
          a < b) := by
  decide

/-- **C5, amended.** In `TiltStage.initialize` the per-motor order is:
current set and velocity set first, then every register clear, then
every home — every current/velocity command precedes every clear, and
every clear precedes every home, for each of the three motors. -/
theorem tilt_init_actual_order :
    ∀ i ∈ tiltIDs,
      (∀ b ∈ posOf tiltInitTrace (tiltCur i) ++ posOf tiltInitTrace (tiltVl i),
        ∀ a ∈ posOf tiltInitTrace (tiltCr i), b < a) ∧
      (∀ a ∈ posOf tiltInitTrace (tiltCr i),
        ∀ h ∈ posOf tiltInitTrace (tiltHm i), a < h) := by
  decide

/-! ## Autofocus target mapping (`pyseq2/imager.py`, `Imager.autofocus`) -/

/-- Python's `int()` applied to a rational: truncation toward zero,
i.e. the floor for nonnegative values and the negated floor of the
negation otherwise. -/
def pyInt (q : Rat) : Int := if 0 ≤ q then ⌊q⌋ else -⌊-q⌋

/-- `np.argmax` over a list of intensities: index of the first maximal
element (ties broken toward the earlier index, as in NumPy). -/
def argmaxAux (best : Nat) (bv : Rat) (i : Nat) : List Rat → Nat
  | [] => best
  | x :: xs => if x > bv then argmaxAux i x (i + 1) xs else argmaxAux best bv (i + 1) xs

/-- `np.argmax` of an intensity vector (0 on the empty vector). -/
def argmaxIdx : List Rat → Nat
  | [] => 0
  | x :: xs => argmaxAux 0 x 1 xs

/-- The autofocus target-step formula of `Imager.autofocus`:
`int(z_max - (((z_max - z_min) / n_bundles) * argmax + z_min))`. -/
def afTarget (zmin zmax nB am : Rat) : Int :=
  pyInt (zmax - ((zmax - zmin) / nB * am + zmin))

/-- The autofocus target for an intensity vector, with the constants of
`Imager.autofocus`: `n_bundles = 232`, `z_min = 2621`, `z_max = 60292`. -/
def afTargetOfIntensity (intensity : List Rat) : Int :=
  afTarget 2621 60292 232 (argmaxIdx intensity)

/-- A 232-long intensity vector whose unique maximum sits at index 100. -/
def afProbeVec : List Rat :=
  (List.range 232).map (fun i => if i = 100 then 1 else 0)

/-- **C6, counterexample.** On a 232-long intensity vector with its
maximum at index 100 the implementation's formula (real division, then
`int()` truncation) yields 32 812, not the claimed 30 806:
`60292 − ((60292 − 2621)/232 · 100 + 2621) = 1903143/58 ≈ 32812.81`. -/
theorem autofocus_target_not_30806 :
    argmaxIdx afProbeVec = 100 ∧ afTargetOfIntensity afProbeVec ≠ 30806 := by
  have ham : argmaxIdx afProbeVec = 100 := by
    set_option maxRecDepth 4000 in decide
  refine ⟨ham, ?_⟩
  unfold afTargetOfIntensity afTarget
  rw [ham]
  have hq : ((60292 : Rat) - ((60292 - 2621) / 232 * ((100 : Nat) : Rat) + 2621)) =
      1903143 / 58 := by norm_num
  rw [pyInt, hq, if_pos (by norm_num)]
  intro hc
  rw [Int.floor_eq_iff] at hc
  rcases hc with ⟨h1, h2⟩
  norm_num at h2

/-- **C6, amended.** For every intensity vector whose argmax is 100,
the computed target step equals 32 812. -/
theorem autofocus_target_value (v : List Rat) (h : argmaxIdx v = 100) :
    afTargetOfIntensity v = 32812 := by
  unfold afTargetOfIntensity afTarget
  rw [h]
  have hq : ((60292 : Rat) - ((60292 - 2621) / 232 * ((100 : Nat) : Rat) + 2621)) =
      1903143 / 58 := by norm_num
  rw [pyInt, hq, if_pos (by norm_num), Int.floor_eq_iff]
  constructor <;> norm_num

/-- Witness for amended C6: the probe vector has argmax 100 and target
32 812. -/
theorem autofocus_target_value_witness :
    afTargetOfIntensity afProbeVec = 32812 :=
  autofocus_target_value afProbeVec (by set_option maxRecDepth 4000 in decide)

/-! ## The imaging orchestrator's `take` (`pyseq2/imager.py`) -/

/-- A NumPy `uint16` 3-D image: shape `(nc, nr, nw)` plus the element
function.  Elements are naturals; the `uint16` dtype is captured by the
value bounds proved about results. -/
structure Img where
  nc : Nat
  nr : Nat
  nw : Nat
  data : Nat → Nat → Nat → Nat

/-- `np.clip(a, lo, hi)`: every element clamped into `[lo, hi]`. -/
def npClip (lo hi : Nat) (a : Img) : Img :=
  { a with data := fun i j k => min hi (max lo (a.data i j k)) }

/-- `np.flip(a, axis=1)`: reverse the row axis. -/
def npFlipRows (a : Img) : Img :=
  { a with data := fun i j k => a.data i (a.nr - 1 - j) k }

/-- `a[:, :-m, :]` — drop the last `m` rows. -/
def dropLastRows (m : Nat) (a : Img) : Img :=
  { a with nr := a.nr - m }

/-- `a[idxs, :, :]` — fancy-index the channel axis with `idxs`. -/
def takeChannels (idxs : List Nat) (a : Img) : Img :=
  { nc := idxs.length, nr := a.nr, nw := a.nw,
    data := fun i j k => a.data (idxs.getD i 0) j k }

/-- The fixed logical-to-physical channel remap
`CHANNEL = {0: 1, 1: 3, 2: 2, 3: 0}`. -/
def CHANNEL : Nat → Nat
  | 0 => 1
  | 1 => 3
  | 2 => 2
  | _ => 0

/-- Insert into an ascending list (helper for `sortAsc`). -/
def insertAsc (x : Nat) : List Nat → List Nat
  | [] => [x]
  | y :: ys => if x ≤ y then x :: y :: ys else y :: insertAsc x ys

/-- Python's `sorted` on a list of naturals (insertion sort). -/
def sortAsc (l : List Nat) : List Nat := l.foldr insertAsc []

/-- The camera-selection branch of `Imager.take` on the physical
channel list `c`: both cameras (`cam = 2`) when `c` meets both
`{0, 1}` and `{2, 3}`, camera 0 when it meets only `{0, 1}`, camera 1
when it meets only `{2, 3}`, and `Invalid channel(s).` otherwise. -/
def camOf (c : List Nat) : Except String Nat :=
  if (c.contains 0 || c.contains 1) && (c.contains 2 || c.contains 3) then .ok 2
  else if c.contains 0 || c.contains 1 then .ok 0
  else if c.contains 2 || c.contains 3 then .ok 1
  else .error "Invalid channel(s)."

/-- Modelled from the spec: `Cameras.acapture`
(`pyseq2/imaging/camera/dcam.py`, not included in the sources) returns
the stacked per-channel images of the selected cameras in driver order:
two channels for a single camera (0 or 1), four when both are used
(`cam = 2`). -/
def nChanOfCam (cam : Nat) : Nat :=
  if cam = 2 then 4 else 2

/-- The instrument state snapshot (`State` in `pyseq2/imager.py`). -/
structure State where
  x : Int
  y : Int
  zTilt : Int × Int × Int
  zObj : Int
  laserG : Int
  laserR : Int

/-- What `Imager.take` returns: a `(image, state)` pair on the
`cam ≠ 1` branches, a bare image (no state) on the `cam = 1` branch. -/
inductive TakeRet where
  | pair : Img → State → TakeRet
  | bare : Img → TakeRet

/-- The image carried by a `take` return value. -/
def retImg : TakeRet → Img
  | .pair i _ => i
  | .bare i => i

/-- `true` iff a `take` result is a successful bare-array return. -/
def takeIsBare : Except String TakeRet → Bool
  | .ok (.bare _) => true
  | _ => false

/-- `true` iff a `take` result is a successful `(image, state)` pair. -/
def takeIsPair : Except String TakeRet → Bool
  | .ok (.pair _ _) => true
  | _ => false

/-- Channel count of a successful `take` result (0 on failure). -/
def takeChansOf : Except String TakeRet → Nat
  | .ok r => (retImg r).nc
  | .error _ => 0

/-- `Imager.take(n_bundles, dark, channels, move_back_to_start)`.
`channels` is the requested logical-channel set (a Python `frozenset`,
modelled as a list whose duplicates are dropped), `st` the state
snapshot taken at the start, and `raw` the image delivered by
`cams.acapture` for `n_bundles + 1` bundles (the flush bundle).
Validation order follows the source: the `0 < n_bundles < 1500` check,
then `CHANNEL[x]` lookups (`KeyError` on a channel outside `{0..3}`),
then the camera branch.  The Y-motion bookkeeping (TDI prep, overshoot,
return move) does not touch the returned arrays and is not modelled.
Post-processing per the source: flip rows, clip to `[0, 4096]`, and on
`cam = 1` select `[x - 2 for x in c]` and drop the last 128 rows,
returning the bare array; otherwise drop the last 128 rows of all
channels and return the `(image, state)` pair. -/
def Imager_take (nBundles : Nat) (dark : Bool) (channels : List Nat)
    (moveBackToStart : Bool) (st : State) (raw : Img) : Except String TakeRet :=
  if ¬(0 < nBundles ∧ nBundles < 1500) then
    .error "n_bundles should be between 0 and 1500."
  else if ¬(channels.all (fun x => x ≤ 3)) then .error "KeyError"
  else
    match camOf ((sortAsc channels.dedup).map CHANNEL) with
    | .error e => .error e
    | .ok cam =>
      if cam = 1 then
        .ok (.bare (dropLastRows 128 (takeChannels
          (((sortAsc channels.dedup).map CHANNEL).map (fun x => x - 2))
          (npClip 0 4096 (npFlipRows raw)))))
      else
        .ok (.pair (dropLastRows 128 (npClip 0 4096 (npFlipRows raw))) st)

/-- A zeroed state snapshot, for concrete evaluations. -/
def st0 : State := ⟨0, 0, (0, 0, 0), 0, 0, 0⟩

/-- Inserting into a list grows its length by one. -/
theorem length_insertAsc (x : Nat) (l : List Nat) :
    (insertAsc x l).length = l.length + 1 := by
  induction l with
  | nil => rfl
  | cons y ys ih =>
    unfold insertAsc
    by_cases h : x ≤ y
    · rw [if_pos h]
      simp
    · rw [if_neg h]
      simp [ih]

/-- Sorting preserves length. -/
theorem length_sortAsc (l : List Nat) : (sortAsc l).length = l.length := by
  induction l with
  | nil => rfl
  | cons x xs ih =>
    show (insertAsc x (sortAsc xs)).length = xs.length + 1
    rw [length_insertAsc, ih]

/-! ## Theorems about `take` -/

/-- **C2.** The return structure of `take` is **not** uniform across the
camera-selection branches: requesting only channel 2 (served by camera 1
alone) yields a bare image array with no state snapshot, while the
all-channel request yields the `(image, state)` pair. -/
theorem take_cam1_returns_bare_array :
    takeIsBare (Imager_take 2 false [2] true st0 ⟨2, 384, 2048, fun _ _ _ => 0⟩) = true ∧
    takeIsPair (Imager_take 2 false [0, 1, 2, 3] true st0 ⟨4, 384, 2048, fun _ _ _ => 0⟩)
      = true := by
  constructor <;> rfl

/-- The 2-channel raw capture of camera 0 for `n_bundles = 1`
(`(1 + 1) · 128 = 256` rows including the flush bundle). -/
def raw0 : Img := ⟨2, 256, 2048, fun _ _ _ => 0⟩

/-- **C3, counterexample.** `take(1, channels = {0})` succeeds, but the
returned image has 2 channels, not `|{0}| = 1`: channel 0 maps to
physical channel 1, so camera 0 alone is selected, and the `cam = 0`
return path `imgs[:, :-128, :]` keeps both of camera 0's channels
instead of restricting to the requested subset. -/
theorem take_shape_claim_false :
    takeIsPair (Imager_take 1 false [0] true st0 raw0) = true ∧
    takeChansOf (Imager_take 1 false [0] true st0 raw0) = 2 ∧
    [0].dedup.length = 1 := by
  refine ⟨rfl, rfl, rfl⟩

/-- **C3, amended.** Every successful
`take(n, dark, channels, move_back_to_start)` returns an image with
`n · 128` rows (the flush bundle dropped), 2048 columns and every
element in `[0, 4096]` (hence representable in `uint16`); its channel
count is `|channels|` when camera 1 alone serves the request, and
otherwise the full channel count of the selected cameras (2 for camera
0 alone, 4 for both) — the non-`cam = 1` branches do not restrict to
the requested subset. -/
theorem take_shape_amended (n : Nat) (dark mb : Bool) (channels : List Nat)
    (st : State) (raw : Img) (cam : Nat)
    (hn : 0 < n ∧ n < 1500)
    (hv : channels.all (fun x => x ≤ 3) = true)
    (hcam : camOf ((sortAsc channels.dedup).map CHANNEL) = .ok cam)
    (hc : raw.nc = nChanOfCam cam)
    (hr : raw.nr = (n + 1) * 128)
    (hw : raw.nw = 2048) :
    ∃ ret, Imager_take n dark channels mb st raw = .ok ret ∧
      (retImg ret).nc = (if cam = 1 then channels.dedup.length else nChanOfCam cam) ∧
      (retImg ret).nr = n * 128 ∧
      (retImg ret).nw = 2048 ∧
      ∀ i j k, (retImg ret).data i j k ≤ 4096 := by
  unfold Imager_take
  rw [if_neg (not_not_intro hn)]
  rw [if_neg (by simp [hv])]
  rw [hcam]
  dsimp only
  by_cases h1 : cam = 1
  · rw [if_pos h1]
    refine ⟨_, rfl, ?_, ?_, ?_, ?_⟩
    · simp only [retImg, dropLastRows, takeChannels, if_pos h1]
      rw [List.length_map, List.length_map, length_sortAsc]
    · simp only [retImg, dropLastRows, takeChannels, npClip, npFlipRows]
      omega
    · simp only [retImg, dropLastRows, takeChannels, npClip, npFlipRows]
      exact hw
    · intro i j k
      simp only [retImg, dropLastRows, takeChannels, npClip, npFlipRows]
      exact min_le_left _ _
  · rw [if_neg h1]
    refine ⟨_, rfl, ?_, ?_, ?_, ?_⟩
    · simp only [retImg, dropLastRows, npClip, npFlipRows, if_neg h1]
      exact hc
    · simp only [retImg, dropLastRows, npClip, npFlipRows]
      omega
    · simp only [retImg, dropLastRows, npClip, npFlipRows]
      exact hw
    · intro i j k
      simp only [retImg, dropLastRows, npClip, npFlipRows]
      exact min_le_left _ _

/-- The 2-channel raw capture of camera 1 for `n_bundles = 1`, with
saturated elements (5000 exceeds the 4096 clip bound). -/
def rawW : Img := ⟨2, 256, 2048, fun _ _ _ => 5000⟩

/-- Witness for amended C3: `take(1, channels = {2})` selects camera 1,
succeeds, and the result has `|{2}| = 1` channel, 128 rows, 2048
columns, values at most 4096. -/
theorem take_shape_amended_witness :
    ∃ ret, Imager_take 1 false [2] true st0 rawW = .ok ret ∧
      (retImg ret).nc = (if (1 : Nat) = 1 then [2].dedup.length else nChanOfCam 1) ∧
      (retImg ret).nr = 1 * 128 ∧
      (retImg ret).nw = 2048 ∧
      ∀ i j k, (retImg ret).data i j k ≤ 4096 :=
  take_shape_amended 1 false true [2] st0 rawW 1 (by omega) rfl rfl rfl rfl rfl

/-! ## Camera capture (`src/imaging/camera/dcam.py`) -/

/-- Row count of the NumPy slice `buf[i·h : (i+1)·h, :]` of a buffer
with `total` rows: slice bounds are clamped to the buffer, so an
out-of-range slice is short (possibly empty), never an index error. -/
def sliceRows (total i h : Nat) : Nat :=
  min ((i + 1) * h) total - min (i * h) total

/-- `Cameras.get_bundles(bufs, i)` via `_Camera.get_bundle`: lock driver
memory for bundle `i` and assign the `(128, 4096)` bundle into
`buf[i*128 : (i+1)*128, :]` of the host buffer allocated by
`_Camera.alloc` with exactly `n_bundles · 128` rows.  The assignment
broadcasts into the slice and succeeds exactly when the slice has 128
rows; a clamped-short slice raises a broadcast `ValueError`. -/
def getBundles (nBundles i : Nat) : Except String Nat :=
  if sliceRows (nBundles * 128) i 128 = 128 then .ok i
  else .error "could not broadcast input array"

/-- Copy the listed bundle indices in order, stopping at the first
failing slice assignment; returns the copied indices. -/
def drainIdxs (nBundles : Nat) : List Nat → Except String (List Nat)
  | [] => .ok []
  | i :: rest =>
    match getBundles nBundles i with
    | .ok _ => (drainIdxs nBundles rest).map (fun l => i :: l)
    | .error e => .error e

/-- The polling loop and residual drain of `Cameras.capture`: `polls`
is the successive values of `min(f_count₀, f_count₁)`
(`Cameras.n_frames_taken`) seen by the `while` condition.  While
`curr < n_bundles`, bundles `[taken, curr)` are copied and `taken`
advances; on loop exit the residual drain copies
`[taken, max(curr, n_bundles))`.  `none` means the poll sequence was
exhausted with the loop still running; otherwise the result is the
ordered list of copied bundles or the first copy error. -/
def captureLoop (nBundles taken : Nat) : List Nat → Option (Except String (List Nat))
  | [] => none
  | curr :: rest =>
    if curr < nBundles then
      match drainIdxs nBundles (List.range' taken (curr - taken)) with
      | .error e => some (.error e)
      | .ok l => (captureLoop nBundles (max taken curr) rest).map
          (fun r => r.map (fun l2 => l ++ l2))
    else
      some (drainIdxs nBundles (List.range' taken (max curr nBundles - taken)))

/-- `Cameras.capture(n_bundles)` from the initial `taken = 0`. -/
def Cameras_capture (nBundles : Nat) (polls : List Nat) :
    Option (Except String (List Nat)) :=
  captureLoop nBundles 0 polls

/-- Membership introduction for `List.range'`. -/
theorem mem_range'_of_bounds :
    ∀ (k s m : Nat), s ≤ m → m < s + k → m ∈ List.range' s k := by
  intro k
  induction k with
  | zero => intro s m h1 h2; omega
  | succ k ih =>
    intro s m h1 h2
    show m ∈ s :: List.range' (s + 1) k
    by_cases hm : m = s
    · exact hm ▸ List.mem_cons_self _ _
    · exact List.mem_cons_of_mem _ (ih (s + 1) m (by omega) (by omega))

/-- Membership elimination for `List.range'`. -/
theorem bounds_of_mem_range' :
    ∀ (k s m : Nat), m ∈ List.range' s k → s ≤ m ∧ m < s + k := by
  intro k
  induction k with
  | zero => intro s m h; simp [List.range'] at h
  | succ k ih =>
    intro s m h
    rcases List.mem_cons.mp h with h | h
    · omega
    · have := ih (s + 1) m h
      omega

/-- In-bounds bundle copies all succeed and copy exactly their list. -/
theorem drainIdxs_ok (n : Nat) :
    ∀ l, (∀ i ∈ l, i < n) → drainIdxs n l = .ok l := by
  intro l
  induction l with
  | nil => intro _; rfl
  | cons i rest ih =>
    intro h
    have hi : i < n := h i (List.mem_cons_self _ _)
    have hslice : sliceRows (n * 128) i 128 = 128 := by
      unfold sliceRows
      have h1 : (i + 1) * 128 ≤ n * 128 := by omega
      have h2 : i * 128 ≤ n * 128 := by omega
      omega
    unfold drainIdxs getBundles
    rw [if_pos hslice]
    rw [ih (fun j hj => h j (List.mem_cons_of_mem _ hj))]
    rfl

/-- A list containing an out-of-bounds bundle index makes the drain
fail with a broadcast error. -/
theorem drainIdxs_err (n : Nat) :
    ∀ l, (∃ i ∈ l, n ≤ i) → ∃ e, drainIdxs n l = .error e := by
  intro l
  induction l with
  | nil => intro h; simp at h
  | cons i rest ih =>
    intro h
    unfold drainIdxs getBundles
    by_cases hi : i < n
    · have hslice : sliceRows (n * 128) i 128 = 128 := by
        unfold sliceRows
        have h1 : (i + 1) * 128 ≤ n * 128 := by omega
        omega
      rw [if_pos hslice]
      have hrest : ∃ j ∈ rest, n ≤ j := by
        rcases h with ⟨j, hj, hnj⟩
        rcases List.mem_cons.mp hj with rfl | hj'
        · omega
        · exact ⟨j, hj', hnj⟩
      rcases ih hrest with ⟨e, he⟩
      rw [he]
      exact ⟨e, rfl⟩
    · have hslice : sliceRows (n * 128) i 128 ≠ 128 := by
        unfold sliceRows
        have h1 : n * 128 ≤ i * 128 := by omega
        have h2 : n * 128 ≤ (i + 1) * 128 := by omega
        omega
      rw [if_neg hslice]
      exact ⟨_, rfl⟩

/-- The generalized over-delivery lemma: if the first poll value `c`
at which the loop exits satisfies `c > n_bundles`, and the bundles
already taken number fewer than `n_bundles`, the residual drain errors. -/
theorem captureLoop_overdelivery (n c : Nat) (hc : n < c) :
    ∀ (polls : List Nat) (taken : Nat), taken < n →
      polls.find? (fun x => decide (n ≤ x)) = some c →
      ∃ e, captureLoop n taken polls = some (.error e) := by
  intro polls
  induction polls with
  | nil => intro taken _ hfind; simp [List.find?] at hfind
  | cons curr rest ih =>
    intro taken htaken hfind
    by_cases hcur : n ≤ curr
    · have hcc : curr = c := by
        have hd : decide (n ≤ curr) = true := by simpa using hcur
        simp only [List.find?, hd] at hfind
        exact Option.some_inj.mp hfind
      unfold captureLoop
      rw [if_neg (by omega)]
      have hmax : max curr n = curr := by omega
      rw [hmax]
      have hmem : (n : Nat) ∈ List.range' taken (curr - taken) :=
        mem_range'_of_bounds _ _ _ (by omega) (by omega)
      rcases drainIdxs_err n _ ⟨n, hmem, le_refl n⟩ with ⟨e, he⟩
      rw [he]
      exact ⟨e, rfl⟩
    · have hfind' : rest.find? (fun x => decide (n ≤ x)) = some c := by
        have hd : decide (n ≤ curr) = false := by simpa using hcur
        simp only [List.find?, hd] at hfind
        exact hfind
      unfold captureLoop
      rw [if_pos (by omega)]
      have hok : drainIdxs n (List.range' taken (curr - taken)) =
          .ok (List.range' taken (curr - taken)) := by
        apply drainIdxs_ok
        intro i hi
        have := bounds_of_mem_range' _ _ _ hi
        omega
      rw [hok]
      have htaken' : max taken curr < n := by omega
      rcases ih (max taken curr) htaken' hfind' with ⟨e, he⟩
      rw [he]
      exact ⟨e, rfl⟩

/-- **C9.** If the paired minimum frame count observed at the exiting
poll of `Cameras.capture(n_bundles)` strictly exceeds `n_bundles`, the
residual drain reaches bundle index `n_bundles`, whose slice of the
`n_bundles·128`-row host buffer is clamped empty, so the broadcast
assignment in `get_bundle` fails and `capture` raises instead of
returning an image — over-delivery by the driver is not clamped. -/
theorem capture_overdelivery_errors (n c : Nat) (polls : List Nat)
    (hn : 0 < n) (hc : n < c)
    (hfind : polls.find? (fun x => decide (n ≤ x)) = some c) :
    ∃ e, Cameras_capture n polls = some (.error e) :=
  captureLoop_overdelivery n c hc polls 0 hn hfind

/-- Witness for C9: with `n_bundles = 2` and polls `1, 4` (the second
poll over-delivers: 4 > 2), capture fails with a broadcast error. -/
theorem capture_overdelivery_errors_witness :
    ∃ e, Cameras_capture 2 [1, 4] = some (.error e) :=
  capture_overdelivery_errors 2 4 [1, 4] (by omega) (by omega) (by rfl)

/-- Witness for amended C5: for motor 1 every current/velocity-set
precedes every register clear, and every clear precedes every home. -/
theorem tilt_init_actual_order_witness :
    (∀ b ∈ posOf tiltInitTrace (tiltCur 1) ++ posOf tiltInitTrace (tiltVl 1),
      ∀ a ∈ posOf tiltInitTrace (tiltCr 1), b < a) ∧
    (∀ a ∈ posOf tiltInitTrace (tiltCr 1),
      ∀ h ∈ posOf tiltInitTrace (tiltHm 1), a < h) :=
  tilt_init_actual_order 1 (by decide)
